import Mathlib

/-!
Verification of the ROVDataConcat state-estimation and terrain-safety code.

The definitions below are a shallow embedding of the Python sources:

* `src/processors/kalman_filter.py` — the Kalman-filter loop (`process_data`),
  the heading smoother (`filter_heading`), and `wrap_angle`;
* `src/processors/kalman_offset_depth1m_heading2m.py` — the terrain depth
  pipeline and the final column bookkeeping;
* `src/Nav_depth_offset.py` — the depth pre-filter and the steep-terrain
  lateral shift.

Machine floats are modelled as exact rationals (`ℚ`); the float value of
`np.pi`/`math.pi` is the exact rational `piQ` below.  The missing value
`NaN` of an optional data channel is modelled as `Option.none`.  The heading
smoother involves genuinely transcendental operations (`sin`, `cos`,
`arctan2`), so that component alone is modelled over `ℝ`.
-/

/-- The exact rational value of the IEEE-754 double `np.pi` (= `math.pi`),
namely 884279719003555 / 2^48, used by `wrap_angle` and by
`math.radians(20)` in the initial covariance. -/
def piQ : ℚ := 884279719003555 / 281474976710656

/-- Python float modulo `a % b` for a positive divisor `b`:
`a - b * ⌊a / b⌋` (the result carries the sign of the divisor). -/
def qmod (a b : ℚ) : ℚ := a - b * ⌊a / b⌋

/-- `wrap_angle` (kalman_filter.py, lines 43–45):
`(angle + np.pi) % (2 * np.pi) - np.pi`. -/
def wrapAngle (a : ℚ) : ℚ := qmod (a + piQ) (2 * piQ) - piQ

lemma qmod_eq_fract (a b : ℚ) (hb : b ≠ 0) : qmod a b = b * Int.fract (a / b) := by
  unfold qmod Int.fract
  field_simp

lemma qmod_mem (a b : ℚ) (hb : 0 < b) : qmod a b ∈ Set.Ico (0 : ℚ) b := by
  rw [qmod_eq_fract a b (ne_of_gt hb)]
  constructor
  · exact mul_nonneg (le_of_lt hb) (Int.fract_nonneg _)
  · have h1 : Int.fract (a / b) < 1 := Int.fract_lt_one _
    calc b * Int.fract (a / b) < b * 1 := by
          exact (mul_lt_mul_left hb).mpr h1
      _ = b := mul_one b

lemma piQ_pos : 0 < piQ := by norm_num [piQ]

lemma wrapAngle_mem (a : ℚ) : wrapAngle a ∈ Set.Ico (-piQ) piQ := by
  have hpi := piQ_pos
  have h := qmod_mem (a + piQ) (2 * piQ) (by linarith)
  obtain ⟨h0, h1⟩ := h
  rw [Set.mem_Ico]
  unfold wrapAngle
  exact ⟨by linarith, by linarith⟩

/-! ### 8×8 matrices over ℚ

The filter state is 8-dimensional (x, y, z, roll, pitch, vx, vy, vz);
`filterpy.kalman.KalmanFilter` stores the covariance as an 8×8 array and
implements `predict` as `P = F P Fᵀ + Q` and a scalar `update` in Joseph
form `P = (I - K H) P (I - K H)ᵀ + K R Kᵀ`. -/

/-- An 8×8 rational matrix, indexed the way `numpy` indexes `kf.P`. -/
def Mat8 : Type := Fin 8 → Fin 8 → ℚ

/-- Matrix product (`numpy.dot`). -/
def mul8 (A B : Mat8) : Mat8 := fun i j => ∑ k, A i k * B k j

/-- Matrix transpose. -/
def tr8 (A : Mat8) : Mat8 := fun i j => A j i

/-- Entrywise matrix sum. -/
def madd8 (A B : Mat8) : Mat8 := fun i j => A i j + B i j

/-- The one-hot measurement row `H` with `H[0, m] = 1` and zeros elsewhere;
every `H` built in the `process_data` loop has this shape. -/
def eVec (m : Fin 8) : Fin 8 → ℚ := fun j => if j = m then 1 else 0

/-- The state-transition matrix built per step (kalman_filter.py, lines
266–271): identity with `F[0,5] = F[1,6] = F[2,7] = dt`. -/
def Fmat (dt : ℚ) : Mat8 := fun i j =>
  if i = j then 1
  else if i = 0 ∧ j = 5 then dt
  else if i = 1 ∧ j = 6 then dt
  else if i = 2 ∧ j = 7 then dt
  else 0

/-- The process-noise matrix `kf.Q` (kalman_filter.py, lines 231–235):
`diag(0.3², 0.3², 0.3², 0.01², 0.01², 0.05², 0.05², 0.05²)`. -/
def Qmat : Mat8 := fun i j =>
  if i = j then
    if (i : ℕ) < 3 then (3/10)^2 else if (i : ℕ) < 5 then (1/100)^2 else (5/100)^2
  else 0

/-- The initial covariance `kf.P` (kalman_filter.py, lines 236–241):
`diag(1000, 1000, 1000, radians(20)², radians(20)², 100, 100, 100)`. -/
def initP : Mat8 := fun i j =>
  if i = j then
    if (i : ℕ) < 3 then 1000 else if (i : ℕ) < 5 then (piQ * 20 / 180)^2 else 100
  else 0

/-- Filter state: mean vector `kf.x` and covariance `kf.P`. -/
structure KFState where
  x : Fin 8 → ℚ
  P : Mat8

/-- `kf.predict()` with transition `Fmat dt` and process noise `Qmat`:
`x ← F x`, `P ← F P Fᵀ + Q` (filterpy `predict`). -/
def kfPredict (dt : ℚ) (s : KFState) : KFState :=
  { x := fun i => ∑ j, Fmat dt i j * s.x j
    P := madd8 (mul8 (mul8 (Fmat dt) s.P) (tr8 (Fmat dt))) Qmat }

/-- `kf.update(z, H=h, R=r)` for a scalar measurement (filterpy `update`):
`S = H P Hᵀ + R`, `K = P Hᵀ / S`, `x ← x + K (z - H x)`, and the Joseph
form `P ← (I - K H) P (I - K H)ᵀ + K R Kᵀ`. -/
def kfUpdate (h : Fin 8 → ℚ) (z r : ℚ) (s : KFState) : KFState :=
  let PHt : Fin 8 → ℚ := fun i => ∑ j, s.P i j * h j
  let S : ℚ := (∑ i, h i * PHt i) + r
  let K : Fin 8 → ℚ := fun i => PHt i / S
  let IKH : Mat8 := fun i j => (if i = j then (1 : ℚ) else 0) - K i * h j
  { x := fun i => s.x i + K i * (z - ∑ j, h j * s.x j)
    P := madd8 (mul8 (mul8 IKH s.P) (tr8 IKH)) (fun i j => K i * r * K j) }

/-! ### The measurement loop of `process_data` (kalman_filter.py, lines 261–368)

One row of `kalman_prepped_datamerge.csv` after the depth pre-filter and UTM
conversion.  A pandas cell holding `NaN` is modelled as `none`; timestamps
are seconds (the code only ever uses their differences). -/

structure MeasurementRow where
  timestamp : ℚ
  herc_depth : Option ℚ
  x_usbl : Option ℚ
  y_usbl : Option ℚ
  accuracy_usbl : Option ℚ
  x_dvl : Option ℚ
  y_dvl : Option ℚ
  roll_rad : Option ℚ
  pitch_rad : Option ℚ
deriving DecidableEq

/-- Mutable state carried across loop iterations: the filter, `prev_time`,
the rolling USBL buffers `recent_usbl_x` / `recent_usbl_y`, and the
`updates_applied` counter. -/
structure LoopState where
  kf : KFState
  prevTime : Option ℚ
  recentX : List ℚ
  recentY : List ℚ
  updatesApplied : ℕ

/-- Appending a fix to the two rolling buffers (kalman_filter.py, lines
284–288): append, then if the x-buffer length exceeds 20 pop the front of
both buffers. -/
def pushBuffers (bx byl : List ℚ) (x y : ℚ) : List ℚ × List ℚ :=
  let bx2 := bx ++ [x]
  let by2 := byl ++ [y]
  if 20 < bx2.length then (bx2.tail, by2.tail) else (bx2, by2)

/-- `np.mean` of a list. -/
def meanQ (l : List ℚ) : ℚ := l.sum / l.length

/-- The square of `np.std` (population variance, `ddof = 0`). -/
def varQ (l : List ℚ) : ℚ := ((l.map (fun v => (v - meanQ l)^2)).sum) / l.length

/-- The outlier-gate condition (kalman_filter.py, lines 294–296):
`std_x > 0 and std_y > 0 and |x - mean_x| <= 3*std_x and |y - mean_y| <= 3*std_y`,
evaluated on the buffers that already contain the new fix.  Since
`std = sqrt var ≥ 0`, `std > 0` is equivalent to `var > 0` and
`|d| ≤ 3*std` is equivalent to `d² ≤ 9·var`; the condition is stated in
this squared form so that it stays within exact rational arithmetic. -/
def usblGate (rx ry : List ℚ) (x y : ℚ) : Bool :=
  decide (0 < varQ rx) && decide (0 < varQ ry) &&
  decide ((x - meanQ rx)^2 ≤ 9 * varQ rx) &&
  decide ((y - meanQ ry)^2 ≤ 9 * varQ ry)

/-- The squared-form encoding used by `usblGate` agrees with the source's
`|d| ≤ 3 * std` over the reals, where `std = Real.sqrt var`. -/
lemma gate_sq_equiv (d v : ℝ) (hv : 0 ≤ v) :
    |d| ≤ 3 * Real.sqrt v ↔ d^2 ≤ 9 * v := by
  have hs : Real.sqrt v ^ 2 = v := Real.sq_sqrt hv
  constructor
  · intro h
    have h2 : |d|^2 ≤ (3 * Real.sqrt v)^2 := by
      have := abs_nonneg d
      nlinarith
    rw [sq_abs] at h2
    nlinarith
  · intro h
    have hsn : 0 ≤ Real.sqrt v := Real.sqrt_nonneg v
    have h2 : |d|^2 ≤ (3 * Real.sqrt v)^2 := by rw [sq_abs]; nlinarith
    have := abs_nonneg d
    nlinarith [sq_nonneg (|d| - 3 * Real.sqrt v), sq_nonneg (|d| + 3 * Real.sqrt v)]

/-- The elapsed time of a loop iteration (kalman_filter.py, line 263):
`1.0` on the first row, else `max(Δt, 0.001)`. -/
def dtOf (st : LoopState) (row : MeasurementRow) : ℚ :=
  match st.prevTime with
  | none => 1
  | some p => max (row.timestamp - p) (1/1000)

/-- Step 1 of an iteration (kalman_filter.py, lines 262–272): compute
`dt`, remember `prev_time`, and run `kf.predict()`. -/
def predictStep (row : MeasurementRow) (st : LoopState) : LoopState :=
  { st with prevTime := some row.timestamp, kf := kfPredict (dtOf st row) st.kf }

/-- Depth update (kalman_filter.py, lines 274–280): if `Herc_Depth_1` is
present, a scalar update on state index 2 with noise `0.1²`. -/
def depthStep (row : MeasurementRow) (st : LoopState) : LoopState :=
  match row.herc_depth with
  | some d =>
      { st with kf := kfUpdate (eVec 2) d ((1/10)^2) st.kf
                updatesApplied := st.updatesApplied + 1 }
  | none => st

/-- USBL measurement noise (kalman_filter.py, lines 299–300): `accuracy²`
when `Accuracy_USBL` is present, else `5²`. -/
def usblNoise (row : MeasurementRow) : ℚ :=
  (match row.accuracy_usbl with | some a => a | none => 5)^2

/-- USBL block (kalman_filter.py, lines 283–321): when both `x_usbl` and
`y_usbl` are present the fix is appended to the rolling buffers (and the
oldest entry popped past 20); with at least 2 buffered fixes the outlier
gate decides whether the two scalar updates (state indices 0 and 1) run,
otherwise they run unconditionally. -/
def usblStep (row : MeasurementRow) (st : LoopState) : LoopState :=
  match row.x_usbl, row.y_usbl with
  | some x, some y =>
      let bufs := pushBuffers st.recentX st.recentY x y
      let st1 := { st with recentX := bufs.1, recentY := bufs.2 }
      if 2 ≤ bufs.1.length then
        if usblGate bufs.1 bufs.2 x y then
          { st1 with
              kf := kfUpdate (eVec 1) y (usblNoise row)
                      (kfUpdate (eVec 0) x (usblNoise row) st1.kf)
              updatesApplied := st1.updatesApplied + 2 }
        else st1
      else
        { st1 with
            kf := kfUpdate (eVec 1) y (usblNoise row)
                    (kfUpdate (eVec 0) x (usblNoise row) st1.kf)
            updatesApplied := st1.updatesApplied + 2 }
  | _, _ => st

/-- The DVL depth condition (kalman_filter.py, line 325):
`row["Herc_Depth_1"] >= -30`; a `NaN` depth compares false. -/
def dvlDepthOK (row : MeasurementRow) : Bool :=
  match row.herc_depth with
  | some d => decide (-30 ≤ d)
  | none => false

/-- DVL block (kalman_filter.py, lines 323–335): when both `x_dvl` and
`y_dvl` are present and the row's measured depth is `≥ -30`, two scalar
updates (state indices 0 and 1) with noise `3²`. -/
def dvlStep (row : MeasurementRow) (st : LoopState) : LoopState :=
  match row.x_dvl, row.y_dvl with
  | some xd, some yd =>
      if dvlDepthOK row then
        { st with
            kf := kfUpdate (eVec 1) yd (3^2) (kfUpdate (eVec 0) xd (3^2) st.kf)
            updatesApplied := st.updatesApplied + 2 }
      else st
  | _, _ => st

/-- Roll update (kalman_filter.py, lines 338–343): scalar update on state
index 3 with noise `0.017²`. -/
def rollStep (row : MeasurementRow) (st : LoopState) : LoopState :=
  match row.roll_rad with
  | some v =>
      { st with kf := kfUpdate (eVec 3) v ((17/1000)^2) st.kf
                updatesApplied := st.updatesApplied + 1 }
  | none => st

/-- Pitch update (kalman_filter.py, lines 345–350): scalar update on state
index 4 with noise `0.017²`. -/
def pitchStep (row : MeasurementRow) (st : LoopState) : LoopState :=
  match row.pitch_rad with
  | some v =>
      { st with kf := kfUpdate (eVec 4) v ((17/1000)^2) st.kf
                updatesApplied := st.updatesApplied + 1 }
  | none => st

/-- Angle wrap (kalman_filter.py, lines 352–354): `kf.x[3]` and `kf.x[4]`
are wrapped into `[-π, π)` after all corrections. -/
def wrapStep (st : LoopState) : LoopState :=
  { st with kf :=
      { x := fun i =>
          if i = 3 then wrapAngle (st.kf.x 3)
          else if i = 4 then wrapAngle (st.kf.x 4)
          else st.kf.x i
        P := st.kf.P } }

/-- One full iteration of the `for i, row in df.iterrows()` loop, in the
source's order: predict, depth, USBL, DVL, roll, pitch, wrap.  The state
emitted into the output columns at this row is `(processRow st row).kf`. -/
def processRow (st : LoopState) (row : MeasurementRow) : LoopState :=
  wrapStep (pitchStep row (rollStep row (dvlStep row
    (usblStep row (depthStep row (predictStep row st))))))

/-- The sequence of per-row emitted loop states. -/
def runStates (st : LoopState) : List MeasurementRow → List LoopState
  | [] => []
  | r :: rs =>
      let st2 := processRow st r
      st2 :: runStates st2 rs

/-- The depth pre-filter (kalman_filter.py, line 184):
`df = df[df["Herc_Depth_1"] <= -20]`; a `NaN` depth compares false and the
row is removed. -/
def keepRow (r : MeasurementRow) : Bool :=
  match r.herc_depth with
  | some d => decide (d ≤ -20)
  | none => false

/-- Rows surviving the depth pre-filter, in order. -/
def depthPrefilter (rows : List MeasurementRow) : List MeasurementRow :=
  rows.filter keepRow

/-- Initial filter mean (kalman_filter.py, lines 223–230): first valid
value of each column, else `0.0`; velocities start at `0`. -/
def initX (rows : List MeasurementRow) : Fin 8 → ℚ := fun i =>
  if i = 0 then ((rows.filterMap (fun r => r.x_usbl)).headD 0)
  else if i = 1 then ((rows.filterMap (fun r => r.y_usbl)).headD 0)
  else if i = 2 then ((rows.filterMap (fun r => r.herc_depth)).headD 0)
  else if i = 3 then ((rows.filterMap (fun r => r.roll_rad)).headD 0)
  else if i = 4 then ((rows.filterMap (fun r => r.pitch_rad)).headD 0)
  else 0

/-- The loop state entering the first iteration: freshly initialised
filter, no previous timestamp, empty rolling buffers, zero counter. -/
def initLoopState (rows : List MeasurementRow) : LoopState :=
  { kf := { x := initX rows, P := initP }
    prevTime := none
    recentX := []
    recentY := []
    updatesApplied := 0 }

/-! ### Terrain depth pipeline of `kalman_offset_depth1m_heading2m.py`

Per-row depth adjustment (lines 104–143): the GeoTIFF center-pixel sample at
the offset position (`geotiff_value`), the flattened 3×3 boundless window
around it (`sample_neighbor_values`), and the three successive adjustments. -/

/-- `np.max` of a nonempty list of window samples; the 3×3 boundless read
always yields 9 values. -/
def maxQ : List ℚ → ℚ
  | [] => 0
  | a :: t => t.foldl max a

/-- The three depth adjustments of `process_data`
(kalman_offset_depth1m_heading2m.py):
line 105–106: if `depth < geotiff_value` then `geotiff_value + 0.5`;
lines 128–129 (`adjust_depth_by_neighbors`): if `depth - max_neighbor < 1`
then `max_neighbor + 0.5`;
lines 139–142 (re-evaluation): if `depth < geotiff_value` then
`geotiff_value + 1`. -/
def safeDepth (center : ℚ) (neighbors : List ℚ) (depth : ℚ) : ℚ :=
  let d1 := if depth < center then center + 1/2 else depth
  let mx := maxQ neighbors
  let d2 := if d1 - mx < 1 then mx + 1/2 else d1
  if d2 < center then center + 1 else d2

/-! ### Steep-terrain lateral shift of `Nav_depth_offset.py` (lines 74–108) -/

/-- The GeoTIFF raster as seen by `process_rov_data`: bounds, per-axis
resolution, and the sampled elevation at an in-bounds coordinate. -/
structure TerrainGrid where
  left : ℚ
  right : ℚ
  bottom : ℚ
  top : ℚ
  resx : ℚ
  resy : ℚ
  sample : ℚ → ℚ → ℚ

/-- The bounds check of lines 58 and 86:
`bounds.left <= x <= bounds.right and bounds.bottom <= y <= bounds.top`. -/
def inBounds (g : TerrainGrid) (c : ℚ × ℚ) : Prop :=
  g.left ≤ c.1 ∧ c.1 ≤ g.right ∧ g.bottom ≤ c.2 ∧ c.2 ≤ g.top

instance (g : TerrainGrid) (c : ℚ × ℚ) : Decidable (inBounds g c) := by
  unfold inBounds; infer_instance

/-- The four axis-aligned neighbor coordinates of lines 80–83. -/
def neighborCoords (g : TerrainGrid) (x y : ℚ) : List (ℚ × ℚ) :=
  [(x - g.resx, y), (x + g.resx, y), (x, y - g.resy), (x, y + g.resy)]

/-- Per-row horizontal adjustment (Nav_depth_offset.py, lines 77–108):
rows without terrain data (`NaN` center sample) are left untouched; for
the others the in-bounds axis-aligned neighbors are sampled, and if any
exceeds the center sample by more than 0.5 the easting is shifted one cell
east with the northing kept; otherwise the raw coordinates are copied. -/
def steepShift (g : TerrainGrid) (theo : Option ℚ) (x y : ℚ) : ℚ × ℚ :=
  match theo with
  | none => (x, y)
  | some t =>
      let adj := ((neighborCoords g x y).filter (fun c => decide (inBounds g c))).map
        (fun c => g.sample c.1 c.2)
      if adj.any (fun a => decide (t + 1/2 < a)) then (x + g.resx, y) else (x, y)

/-! ### Output columns of `kalman_offset_depth1m_heading2m.py` (lines 86–237)

The per-point audit flags of the spec would have to be columns of the saved
CSV, so the column bookkeeping of the script is embedded: pandas column
assignment appends a new column (or leaves an existing one in place),
`rename` maps names, `pop`/`insert` reorder, `drop` removes. -/

/-- `df[c] = ...`: appends the column if absent, otherwise keeps it. -/
def addCol (cols : List String) (c : String) : List String :=
  if c ∈ cols then cols else cols ++ [c]

/-- The column list of the input CSV, as written by kalman_filter.py
(lines 390–402, `final_columns`). -/
def kalmanFinalColumns : List String :=
  ["Timestamp", "Vehicle", "x_usbl", "y_usbl", "x_dvl", "y_dvl",
   "Heading_rad", "Pitch_rad", "Roll_rad", "kalman_yaw_deg",
   "kalman_x", "kalman_y", "kalman_lat", "kalman_long", "kalman_depth",
   "kalman_roll_deg", "kalman_pitch_deg", "O2_Concentration", "O2_Saturation",
   "Temperature", "Conductivity", "Pressure", "Salinity", "Sound_Velocity",
   "event_value", "event_free_text", "event_option.channel", "event_option.milestone",
   "event_option.rating", "event_option.vehicle",
   "vehicleRealtimeDualHDGrabData.camera_name_2_uom", "vehicleRealtimeDualHDGrabData.camera_name_2_value",
   "vehicleRealtimeDualHDGrabData.camera_name_uom", "vehicleRealtimeDualHDGrabData.camera_name_value",
   "vehicleRealtimeDualHDGrabData.filename_2_uom", "vehicleRealtimeDualHDGrabData.filename_2_value",
   "vehicleRealtimeDualHDGrabData.filename_uom", "vehicleRealtimeDualHDGrabData.filename_value"]

/-- The `rename_map` of lines 191–200. -/
def renameCol (c : String) : String :=
  if c = "kalman_lat" then "Latitude"
  else if c = "kalman_long" then "Longitude"
  else if c = "kalman_depth" then "Depth"
  else if c = "vehicleRealtimeDualHDGrabData.camera_name_2_value" then "Capture_1"
  else if c = "vehicleRealtimeDualHDGrabData.camera_name_value" then "Capture_2"
  else if c = "vehicleRealtimeDualHDGrabData.filename_2_value" then "Capture_1_image_path"
  else if c = "vehicleRealtimeDualHDGrabData.filename_value" then "Capture_2_image_path"
  else c

/-- The `drop_cols` list of lines 220–233. -/
def offsetDropCols : List String :=
  ["x_usbl", "y_usbl", "x_dvl", "y_dvl",
   "Heading_rad", "Pitch_rad", "Roll_rad",
   "kalman_yaw_deg", "kalman_roll_deg", "kalman_pitch_deg",
   "kalman_x", "kalman_y",
   "geotiff_value", "below_surface", "depth_diff",
   "_orig_heading_rad",
   "vehicleRealtimeDualHDGrabData.camera_name_2_uom",
   "vehicleRealtimeDualHDGrabData.camera_name_uom",
   "vehicleRealtimeDualHDGrabData.filename_2_uom",
   "vehicleRealtimeDualHDGrabData.filename_uom"]

/-- `df.insert(idx, c, series)` on the column list. -/
def insertAt (cols : List String) (idx : ℕ) (c : String) : List String :=
  cols.take idx ++ c :: cols.drop idx

/-- Lines 213–217: `depth_idx` is computed once from the position of
"Depth", then each of Roll, Pitch, Heading (the `reversed` order) is
popped and re-inserted at that index. -/
def reorderHPR (cols : List String) : List String :=
  let idx := cols.indexOf "Depth"
  let step := fun (cs : List String) (c : String) => insertAt (cs.erase c) idx c
  step (step (step cols "Roll") "Pitch") "Heading"

/-- The columns of the saved offset CSV, following the script's order of
operations: the added working columns (lines 86–187), the renames (201),
the degree columns (208–210), the reorder (213–217) and the drops (234). -/
def offsetOutputColumns : List String :=
  let c1 := addCol kalmanFinalColumns "_orig_heading_rad"
  let c2 := addCol (addCol c1 "Offset_x") "Offset_y"
  let c3 := addCol (addCol c2 "geotiff_value") "below_surface"
  let c4 := addCol c3 "depth_diff"
  let c5 := addCol (addCol c4 "UTM_X") "UTM_Y"
  let c6 := c5.map renameCol
  let c7 := addCol (addCol (addCol c6 "Heading") "Pitch") "Roll"
  let c8 := reorderHPR c7
  c8.filter (fun c => !(offsetDropCols.contains c))

/-- The columns of the CSV written by `process_rov_data`
(Nav_depth_offset.py, lines 120–137, the `formatted_data` constructor). -/
def navOutputColumns : List String :=
  ["Timestamp", "Longitude", "Latitude", "Depth", "Conductivity",
   "PressurePSI", "SalinityPSU", "SoundVelocityMS", "TemperatureC",
   "Heading", "Pitch", "Roll",
   "OxygenUncompensatedConcentrationMicromolar",
   "OxygenUncompensatedSaturationPercent",
   "SealogEventText", "SealogEventValue"]

/-! ### The heading smoother `filter_heading` (kalman_filter.py, lines 48–82)

This component composes `sin`, `cos`, `gaussian_filter1d` and `arctan2`,
so it is modelled over `ℝ` with the genuine transcendental functions; the
Gaussian window of `scipy.ndimage.gaussian_filter1d` is a finite list of
weights `w` (length `2r+1`) correlated against the sequence with
`mode='nearest'` boundary handling.  A missing (`NaN`) heading is `none`. -/

/-- Float modulo over `ℝ` (`np.mod` with a positive divisor). -/
noncomputable def rmod (a b : ℝ) : ℝ := a - b * ⌊a / b⌋

/-- `np.arctan2(y, x)`: the argument of the complex number `x + y·i`,
in `(-π, π]`. -/
noncomputable def arctan2 (y x : ℝ) : ℝ := Complex.arg (Complex.ofReal x + Complex.ofReal y * Complex.I)

/-- Boundary clamp of `mode='nearest'`: index `k` of a length-`n` sequence
extended by its edge values. -/
def clampIdx (n : ℕ) (k : ℤ) : ℕ :=
  if k < 0 then 0 else if (n : ℤ) - 1 < k then n - 1 else k.toNat

/-- Correlation with a finite window and nearest-boundary extension:
`out[i] = Σ_j w[j] · v[clamp(i + j - r)]` (`scipy.ndimage.correlate1d`,
which `gaussian_filter1d` reduces to for the truncated Gaussian window). -/
noncomputable def convNearest (w : List ℝ) (r : ℕ) (v : List ℝ) : List ℝ :=
  (List.range v.length).map (fun (i : ℕ) =>
    ∑ j in Finset.range w.length, w.getD j 0 * v.getD (clampIdx v.length ((i : ℤ) + (j : ℤ) - (r : ℤ))) 0)

/-- The last valid sample at or before index `i` (`np.interp` left side). -/
def lastLE (pts : List (ℕ × ℝ)) (i : ℕ) : Option (ℕ × ℝ) :=
  (pts.filter (fun p => decide (p.1 ≤ i))).getLast?

/-- The first valid sample at or after index `i` (`np.interp` right side). -/
def firstGE (pts : List (ℕ × ℝ)) (i : ℕ) : Option (ℕ × ℝ) :=
  (pts.filter (fun p => decide (i ≤ p.1))).head?

/-- `np.interp` evaluated at integer position `i` against the ascending
valid sample positions: clamped at the ends, exact at sample points,
linear in between. -/
noncomputable def interpAt (pts : List (ℕ × ℝ)) (i : ℕ) : ℝ :=
  match lastLE pts i, firstGE pts i with
  | some p, some q =>
      if p.1 = q.1 then p.2
      else p.2 + (q.2 - p.2) * ((i : ℝ) - (p.1 : ℝ)) / ((q.1 : ℝ) - (p.1 : ℝ))
  | none, some q => q.2
  | some p, none => p.2
  | none, none => 0

/-- Fill the missing entries of a component sequence by interpolation over
the valid entries (kalman_filter.py, lines 69–72). -/
noncomputable def fillNaN (vals : List (Option ℝ)) : List ℝ :=
  let pts := vals.enum.filterMap (fun p => p.2.map (fun v => (p.1, v)))
  (List.range vals.length).map (interpAt pts)

/-- One unit-circle component channel of the smoother (kalman_filter.py,
lines 63–72, with `f` standing for `np.sin` or `np.cos`): headings are
converted to radians and mapped through `f`; if any heading is missing
the channel is interpolated over the valid positions (`np.interp`),
otherwise it is used as is. -/
noncomputable def headingComponents (hs : List (Option ℝ)) (f : ℝ → ℝ) : List ℝ :=
  if hs.any (fun o => o.isNone) then
    fillNaN (hs.map (Option.map (fun h => f (h * Real.pi / 180))))
  else
    (hs.map (Option.map (fun h => f (h * Real.pi / 180)))).map (fun o => o.getD 0)

/-- `filter_heading(headings, window)` (kalman_filter.py, lines 48–82):
empty or all-missing input returns an all-`NaN` sequence of the same
length; otherwise the sine and cosine channels are built and interpolated
(`headingComponents`), each channel is smoothed by the window `w` (radius
`r`), and the output is `np.mod(np.rad2deg(np.arctan2(sin, cos)), 360)`
per position. -/
noncomputable def filterHeading (w : List ℝ) (r : ℕ) (hs : List (Option ℝ)) : List (Option ℝ) :=
  if hs.all (fun o => o.isNone) then hs.map (fun _ => none)
  else
    (List.range hs.length).map (fun (i : ℕ) =>
      some (rmod (arctan2 ((convNearest w r (headingComponents hs Real.sin)).getD i 0)
        ((convNearest w r (headingComponents hs Real.cos)).getD i 0) * 180 / Real.pi) 360))

lemma rmod_eq_fract (a b : ℝ) (hb : b ≠ 0) : rmod a b = b * Int.fract (a / b) := by
  unfold rmod Int.fract
  field_simp

lemma rmod_mem (a b : ℝ) (hb : 0 < b) : rmod a b ∈ Set.Ico (0 : ℝ) b := by
  rw [rmod_eq_fract a b (ne_of_gt hb)]
  constructor
  · exact mul_nonneg (le_of_lt hb) (Int.fract_nonneg _)
  · calc b * Int.fract (a / b) < b * 1 := (mul_lt_mul_left hb).mpr (Int.fract_lt_one _)
    _ = b := mul_one b

/-! ### Entrywise formulas for the filter operations -/

lemma sum_ite_one_mul (f : Fin 8 → ℚ) (i : Fin 8) :
    (∑ a, (if i = a then (1:ℚ) else 0) * f a) = f i := by
  simp [ite_mul]

lemma sum_mul_ite_one (f : Fin 8 → ℚ) (i : Fin 8) :
    (∑ a, f a * (if i = a then (1:ℚ) else 0)) = f i := by
  simp [mul_ite]

lemma sum_eVec_mul (f : Fin 8 → ℚ) (m : Fin 8) : (∑ a, eVec m a * f a) = f m := by
  simp [eVec, ite_mul]

lemma sum_mul_eVec (f : Fin 8 → ℚ) (m : Fin 8) : (∑ a, f a * eVec m a) = f m := by
  simp [eVec, mul_ite]

/-- The Kalman gain of a scalar update on state index `m` with noise `r`:
`K_i = P_{im} / (P_{mm} + r)`. -/
def Kg (m : Fin 8) (r : ℚ) (s : KFState) : Fin 8 → ℚ := fun i => s.P i m / (s.P m m + r)

lemma joseph_entry (P : Mat8) (K : Fin 8 → ℚ) (m : Fin 8) (r : ℚ) (i j : Fin 8) :
    madd8 (mul8 (mul8 (fun a b => (if a = b then (1:ℚ) else 0) - K a * eVec m b) P)
        (tr8 (fun a b => (if a = b then (1:ℚ) else 0) - K a * eVec m b)))
      (fun a b => K a * r * K b) i j
    = P i j - K j * P i m - K i * P m j + K i * K j * P m m + K i * r * K j := by
  have hinner : ∀ b : Fin 8,
      (∑ a, ((if i = a then (1:ℚ) else 0) - K i * eVec m a) * P a b)
        = P i b - K i * P m b := by
    intro b
    calc (∑ a, ((if i = a then (1:ℚ) else 0) - K i * eVec m a) * P a b)
        = ∑ a, ((if i = a then (1:ℚ) else 0) * P a b - K i * (eVec m a * P a b)) :=
          Finset.sum_congr rfl (fun a _ => by ring)
      _ = (∑ a, (if i = a then (1:ℚ) else 0) * P a b) - K i * (∑ a, eVec m a * P a b) := by
          rw [Finset.sum_sub_distrib, Finset.mul_sum]
      _ = P i b - K i * P m b := by rw [sum_ite_one_mul, sum_eVec_mul]
  unfold madd8 mul8 tr8
  have hsum : (∑ b, (∑ a, ((if i = a then (1:ℚ) else 0) - K i * eVec m a) * P a b) *
          ((if j = b then (1:ℚ) else 0) - K j * eVec m b))
      = ∑ b, ((P i b - K i * P m b) * (if j = b then (1:ℚ) else 0)
          - K j * ((P i b - K i * P m b) * eVec m b)) :=
    Finset.sum_congr rfl (fun b _ => by rw [hinner b]; ring)
  rw [hsum, Finset.sum_sub_distrib, ← Finset.mul_sum,
      sum_mul_ite_one (fun b => P i b - K i * P m b) j,
      sum_mul_eVec (fun b => P i b - K i * P m b) m]
  ring

/-- Covariance entry after a scalar update on index `m` (Joseph form,
specialised to the one-hot `H` rows the loop builds). -/
lemma kfUpdate_P (m : Fin 8) (z r : ℚ) (s : KFState) (i j : Fin 8) :
    (kfUpdate (eVec m) z r s).P i j =
      s.P i j - Kg m r s j * s.P i m - Kg m r s i * s.P m j
        + Kg m r s i * Kg m r s j * s.P m m + Kg m r s i * r * Kg m r s j := by
  have hPHt : ∀ i : Fin 8, (∑ j, s.P i j * eVec m j) = s.P i m :=
    fun i => sum_mul_eVec (s.P i) m
  unfold kfUpdate
  simp only [hPHt, sum_eVec_mul (fun i => s.P i m) m]
  exact joseph_entry s.P (fun i => s.P i m / (s.P m m + r)) m r i j

lemma mulF_apply (dt : ℚ) (P : Mat8) (i j : Fin 8) :
    mul8 (Fmat dt) P i j = P i j +
      dt * (if i = 0 then P 5 j else if i = 1 then P 6 j else if i = 2 then P 7 j else 0) := by
  fin_cases i <;> simp +decide [mul8, Fmat, Fin.sum_univ_eight]

lemma mulFt_apply (dt : ℚ) (A : Mat8) (i j : Fin 8) :
    mul8 A (tr8 (Fmat dt)) i j = A i j +
      dt * (if j = 0 then A i 5 else if j = 1 then A i 6 else if j = 2 then A i 7 else 0) := by
  fin_cases j <;> simp +decide [mul8, tr8, Fmat, Fin.sum_univ_eight] <;> ring

/-! ### Covariance invariant for depth-only measurement streams -/

/-- Structural facts about the covariance that hold along any run in which
only depth updates occur: the x–vx and y–vy cross terms are nonnegative,
the vx and vy variances are nonnegative, and the x- and y-blocks are
uncorrelated with the z-block (rows/columns 2 and 7). -/
structure CovInv (P : Mat8) : Prop where
  h05 : 0 ≤ P 0 5 + P 5 0
  h55 : 0 ≤ P 5 5
  h16 : 0 ≤ P 1 6 + P 6 1
  h66 : 0 ≤ P 6 6
  z02 : P 0 2 = 0
  z07 : P 0 7 = 0
  z52 : P 5 2 = 0
  z57 : P 5 7 = 0
  z20 : P 2 0 = 0
  z70 : P 7 0 = 0
  z25 : P 2 5 = 0
  z75 : P 7 5 = 0
  z12 : P 1 2 = 0
  z17 : P 1 7 = 0
  z62 : P 6 2 = 0
  z67 : P 6 7 = 0
  z21 : P 2 1 = 0
  z71 : P 7 1 = 0
  z26 : P 2 6 = 0
  z76 : P 7 6 = 0

lemma covInv_initP : CovInv initP := by
  constructor <;> simp +decide [initP]

lemma kfPredict_P_apply (dt : ℚ) (s : KFState) (i j : Fin 8) :
    (kfPredict dt s).P i j
      = mul8 (mul8 (Fmat dt) s.P) (tr8 (Fmat dt)) i j + Qmat i j := rfl

lemma mulF_r0 (dt : ℚ) (P : Mat8) (j : Fin 8) :
    mul8 (Fmat dt) P 0 j = P 0 j + dt * P 5 j := by
  rw [mulF_apply]; simp +decide

lemma mulF_r1 (dt : ℚ) (P : Mat8) (j : Fin 8) :
    mul8 (Fmat dt) P 1 j = P 1 j + dt * P 6 j := by
  rw [mulF_apply]; simp +decide

lemma mulF_r2 (dt : ℚ) (P : Mat8) (j : Fin 8) :
    mul8 (Fmat dt) P 2 j = P 2 j + dt * P 7 j := by
  rw [mulF_apply]; simp +decide

lemma mulF_r5 (dt : ℚ) (P : Mat8) (j : Fin 8) :
    mul8 (Fmat dt) P 5 j = P 5 j := by
  rw [mulF_apply]; simp +decide

lemma mulF_r6 (dt : ℚ) (P : Mat8) (j : Fin 8) :
    mul8 (Fmat dt) P 6 j = P 6 j := by
  rw [mulF_apply]; simp +decide

lemma mulF_r7 (dt : ℚ) (P : Mat8) (j : Fin 8) :
    mul8 (Fmat dt) P 7 j = P 7 j := by
  rw [mulF_apply]; simp +decide

lemma mulFt_c0 (dt : ℚ) (A : Mat8) (i : Fin 8) :
    mul8 A (tr8 (Fmat dt)) i 0 = A i 0 + dt * A i 5 := by
  rw [mulFt_apply]; simp +decide

lemma mulFt_c1 (dt : ℚ) (A : Mat8) (i : Fin 8) :
    mul8 A (tr8 (Fmat dt)) i 1 = A i 1 + dt * A i 6 := by
  rw [mulFt_apply]; simp +decide

lemma mulFt_c2 (dt : ℚ) (A : Mat8) (i : Fin 8) :
    mul8 A (tr8 (Fmat dt)) i 2 = A i 2 + dt * A i 7 := by
  rw [mulFt_apply]; simp +decide

lemma mulFt_c5 (dt : ℚ) (A : Mat8) (i : Fin 8) :
    mul8 A (tr8 (Fmat dt)) i 5 = A i 5 := by
  rw [mulFt_apply]; simp +decide

lemma mulFt_c6 (dt : ℚ) (A : Mat8) (i : Fin 8) :
    mul8 A (tr8 (Fmat dt)) i 6 = A i 6 := by
  rw [mulFt_apply]; simp +decide

lemma mulFt_c7 (dt : ℚ) (A : Mat8) (i : Fin 8) :
    mul8 A (tr8 (Fmat dt)) i 7 = A i 7 := by
  rw [mulFt_apply]; simp +decide

lemma qmat_00 : Qmat 0 0 = 9/100 := by norm_num [Qmat]

lemma qmat_11 : Qmat 1 1 = 9/100 := by norm_num [Qmat]

lemma qmat_55 : Qmat 5 5 = 1/400 := by simp +decide [Qmat]; norm_num

lemma qmat_66 : Qmat 6 6 = 1/400 := by simp +decide [Qmat]; norm_num

lemma qmat_ne (i j : Fin 8) (h : ¬ i = j) : Qmat i j = 0 := by simp [Qmat, h]

set_option maxHeartbeats 1600000 in
lemma covInv_predict (dt : ℚ) (hdt : 0 ≤ dt) (s : KFState) (h : CovInv s.P) :
    CovInv (kfPredict dt s).P ∧ s.P 0 0 ≤ (kfPredict dt s).P 0 0 ∧
      s.P 1 1 ≤ (kfPredict dt s).P 1 1 := by
  have e00 : (kfPredict dt s).P 0 0 = s.P 0 0 + dt * (s.P 0 5 + s.P 5 0) + dt * dt * s.P 5 5 + (3/10)^2 := by
    rw [kfPredict_P_apply, mulFt_c0, mulF_r0, mulF_r0, qmat_00]; ring
  have e11 : (kfPredict dt s).P 1 1 = s.P 1 1 + dt * (s.P 1 6 + s.P 6 1) + dt * dt * s.P 6 6 + (3/10)^2 := by
    rw [kfPredict_P_apply, mulFt_c1, mulF_r1, mulF_r1, qmat_11]; ring
  have e05 : (kfPredict dt s).P 0 5 = s.P 0 5 + dt * s.P 5 5 := by
    rw [kfPredict_P_apply, mulFt_c5, mulF_r0, qmat_ne 0 5 (by decide)]; ring
  have e50 : (kfPredict dt s).P 5 0 = s.P 5 0 + dt * s.P 5 5 := by
    rw [kfPredict_P_apply, mulFt_c0, mulF_r5, mulF_r5, qmat_ne 5 0 (by decide)]; ring
  have e55 : (kfPredict dt s).P 5 5 = s.P 5 5 + 1/400 := by
    rw [kfPredict_P_apply, mulFt_c5, mulF_r5, qmat_55]
  have e16 : (kfPredict dt s).P 1 6 = s.P 1 6 + dt * s.P 6 6 := by
    rw [kfPredict_P_apply, mulFt_c6, mulF_r1, qmat_ne 1 6 (by decide)]; ring
  have e61 : (kfPredict dt s).P 6 1 = s.P 6 1 + dt * s.P 6 6 := by
    rw [kfPredict_P_apply, mulFt_c1, mulF_r6, mulF_r6, qmat_ne 6 1 (by decide)]; ring
  have e66 : (kfPredict dt s).P 6 6 = s.P 6 6 + 1/400 := by
    rw [kfPredict_P_apply, mulFt_c6, mulF_r6, qmat_66]
  have e02 : (kfPredict dt s).P 0 2 = s.P 0 2 + dt * s.P 5 2 + dt * (s.P 0 7 + dt * s.P 5 7) := by
    rw [kfPredict_P_apply, mulFt_c2, mulF_r0, mulF_r0, qmat_ne 0 2 (by decide)]; ring
  have e07 : (kfPredict dt s).P 0 7 = s.P 0 7 + dt * s.P 5 7 := by
    rw [kfPredict_P_apply, mulFt_c7, mulF_r0, qmat_ne 0 7 (by decide)]; ring
  have e52 : (kfPredict dt s).P 5 2 = s.P 5 2 + dt * s.P 5 7 := by
    rw [kfPredict_P_apply, mulFt_c2, mulF_r5, mulF_r5, qmat_ne 5 2 (by decide)]; ring
  have e57 : (kfPredict dt s).P 5 7 = s.P 5 7 := by
    rw [kfPredict_P_apply, mulFt_c7, mulF_r5, qmat_ne 5 7 (by decide)]; ring
  have e20 : (kfPredict dt s).P 2 0 = s.P 2 0 + dt * s.P 7 0 + dt * (s.P 2 5 + dt * s.P 7 5) := by
    rw [kfPredict_P_apply, mulFt_c0, mulF_r2, mulF_r2, qmat_ne 2 0 (by decide)]; ring
  have e70 : (kfPredict dt s).P 7 0 = s.P 7 0 + dt * s.P 7 5 := by
    rw [kfPredict_P_apply, mulFt_c0, mulF_r7, mulF_r7, qmat_ne 7 0 (by decide)]; ring
  have e25 : (kfPredict dt s).P 2 5 = s.P 2 5 + dt * s.P 7 5 := by
    rw [kfPredict_P_apply, mulFt_c5, mulF_r2, qmat_ne 2 5 (by decide)]; ring
  have e75 : (kfPredict dt s).P 7 5 = s.P 7 5 := by
    rw [kfPredict_P_apply, mulFt_c5, mulF_r7, qmat_ne 7 5 (by decide)]; ring
  have e12 : (kfPredict dt s).P 1 2 = s.P 1 2 + dt * s.P 6 2 + dt * (s.P 1 7 + dt * s.P 6 7) := by
    rw [kfPredict_P_apply, mulFt_c2, mulF_r1, mulF_r1, qmat_ne 1 2 (by decide)]; ring
  have e17 : (kfPredict dt s).P 1 7 = s.P 1 7 + dt * s.P 6 7 := by
    rw [kfPredict_P_apply, mulFt_c7, mulF_r1, qmat_ne 1 7 (by decide)]; ring
  have e62 : (kfPredict dt s).P 6 2 = s.P 6 2 + dt * s.P 6 7 := by
    rw [kfPredict_P_apply, mulFt_c2, mulF_r6, mulF_r6, qmat_ne 6 2 (by decide)]; ring
  have e67 : (kfPredict dt s).P 6 7 = s.P 6 7 := by
    rw [kfPredict_P_apply, mulFt_c7, mulF_r6, qmat_ne 6 7 (by decide)]; ring
  have e21 : (kfPredict dt s).P 2 1 = s.P 2 1 + dt * s.P 7 1 + dt * (s.P 2 6 + dt * s.P 7 6) := by
    rw [kfPredict_P_apply, mulFt_c1, mulF_r2, mulF_r2, qmat_ne 2 1 (by decide)]; ring
  have e71 : (kfPredict dt s).P 7 1 = s.P 7 1 + dt * s.P 7 6 := by
    rw [kfPredict_P_apply, mulFt_c1, mulF_r7, mulF_r7, qmat_ne 7 1 (by decide)]; ring
  have e26 : (kfPredict dt s).P 2 6 = s.P 2 6 + dt * s.P 7 6 := by
    rw [kfPredict_P_apply, mulFt_c6, mulF_r2, qmat_ne 2 6 (by decide)]; ring
  have e76 : (kfPredict dt s).P 7 6 = s.P 7 6 := by
    rw [kfPredict_P_apply, mulFt_c6, mulF_r7, qmat_ne 7 6 (by decide)]; ring
  have hq : (0:ℚ) ≤ dt * dt * s.P 5 5 := mul_nonneg (mul_nonneg hdt hdt) h.h55
  have hq2 : (0:ℚ) ≤ dt * dt * s.P 6 6 := mul_nonneg (mul_nonneg hdt hdt) h.h66
  have hc : (0:ℚ) ≤ dt * (s.P 0 5 + s.P 5 0) := mul_nonneg hdt h.h05
  have hc2 : (0:ℚ) ≤ dt * (s.P 1 6 + s.P 6 1) := mul_nonneg hdt h.h16
  refine ⟨⟨?_, ?_, ?_, ?_, ?_, ?_, ?_, ?_, ?_, ?_, ?_, ?_, ?_, ?_, ?_, ?_, ?_, ?_, ?_, ?_⟩, ?_, ?_⟩
  · rw [e05, e50]; linarith [h.h05, mul_nonneg hdt h.h55]
  · rw [e55]; linarith [h.h55]
  · rw [e16, e61]; linarith [h.h16, mul_nonneg hdt h.h66]
  · rw [e66]; linarith [h.h66]
  · rw [e02, h.z02, h.z52, h.z07, h.z57]; ring
  · rw [e07, h.z07, h.z57]; ring
  · rw [e52, h.z52, h.z57]; ring
  · rw [e57, h.z57]
  · rw [e20, h.z20, h.z70, h.z25, h.z75]; ring
  · rw [e70, h.z70, h.z75]; ring
  · rw [e25, h.z25, h.z75]; ring
  · rw [e75, h.z75]
  · rw [e12, h.z12, h.z62, h.z17, h.z67]; ring
  · rw [e17, h.z17, h.z67]; ring
  · rw [e62, h.z62, h.z67]; ring
  · rw [e67, h.z67]
  · rw [e21, h.z21, h.z71, h.z26, h.z76]; ring
  · rw [e71, h.z71, h.z76]; ring
  · rw [e26, h.z26, h.z76]; ring
  · rw [e76, h.z76]
  · rw [e00]; linarith [hq, hc]
  · rw [e11]; linarith [hq2, hc2]

lemma dtOf_nonneg (st : LoopState) (row : MeasurementRow) : 0 ≤ dtOf st row := by
  unfold dtOf
  match st.prevTime with
  | none => norm_num
  | some p =>
      have : (1/1000 : ℚ) ≤ max (row.timestamp - p) (1/1000) := le_max_right _ _
      linarith

lemma covInv_depthUpd (z r : ℚ) (s : KFState) (h : CovInv s.P) :
    CovInv (kfUpdate (eVec 2) z r s).P ∧
      (kfUpdate (eVec 2) z r s).P 0 0 = s.P 0 0 ∧
      (kfUpdate (eVec 2) z r s).P 1 1 = s.P 1 1 := by
  have k0 : Kg 2 r s 0 = 0 := by unfold Kg; rw [h.z02]; exact zero_div _
  have k1 : Kg 2 r s 1 = 0 := by unfold Kg; rw [h.z12]; exact zero_div _
  have k5 : Kg 2 r s 5 = 0 := by unfold Kg; rw [h.z52]; exact zero_div _
  have k6 : Kg 2 r s 6 = 0 := by unfold Kg; rw [h.z62]; exact zero_div _
  refine ⟨⟨?_, ?_, ?_, ?_, ?_, ?_, ?_, ?_, ?_, ?_, ?_, ?_, ?_, ?_, ?_, ?_, ?_, ?_, ?_, ?_⟩, ?_, ?_⟩
  · rw [kfUpdate_P, kfUpdate_P, k0, k5]; have := h.h05; linarith [h.h05]
  · rw [kfUpdate_P, k5]; linarith [h.h55]
  · rw [kfUpdate_P, kfUpdate_P, k1, k6]; linarith [h.h16]
  · rw [kfUpdate_P, k6]; linarith [h.h66]
  · rw [kfUpdate_P, k0, h.z02]; ring
  · rw [kfUpdate_P, k0, h.z02, h.z07]; ring
  · rw [kfUpdate_P, k5, h.z52]; ring
  · rw [kfUpdate_P, k5, h.z52, h.z57]; ring
  · rw [kfUpdate_P, k0, h.z20]; ring
  · rw [kfUpdate_P, k0, h.z20, h.z70]; ring
  · rw [kfUpdate_P, k5, h.z25]; ring
  · rw [kfUpdate_P, k5, h.z25, h.z75]; ring
  · rw [kfUpdate_P, k1, h.z12]; ring
  · rw [kfUpdate_P, k1, h.z12, h.z17]; ring
  · rw [kfUpdate_P, k6, h.z62]; ring
  · rw [kfUpdate_P, k6, h.z62, h.z67]; ring
  · rw [kfUpdate_P, k1, h.z21]; ring
  · rw [kfUpdate_P, k1, h.z21, h.z71]; ring
  · rw [kfUpdate_P, k6, h.z26]; ring
  · rw [kfUpdate_P, k6, h.z26, h.z76]; ring
  · rw [kfUpdate_P, k0]; ring
  · rw [kfUpdate_P, k1]; ring

lemma usblStep_noop (row : MeasurementRow) (st : LoopState) (h : row.x_usbl = none) :
    usblStep row st = st := by
  unfold usblStep
  rw [h]

lemma dvlStep_noop (row : MeasurementRow) (st : LoopState) (h : row.x_dvl = none) :
    dvlStep row st = st := by
  unfold dvlStep
  rw [h]

lemma rollStep_noop (row : MeasurementRow) (st : LoopState) (h : row.roll_rad = none) :
    rollStep row st = st := by
  unfold rollStep
  rw [h]

lemma pitchStep_noop (row : MeasurementRow) (st : LoopState) (h : row.pitch_rad = none) :
    pitchStep row st = st := by
  unfold pitchStep
  rw [h]

lemma wrapStep_P (st : LoopState) : (wrapStep st).kf.P = st.kf.P := rfl

/-- A record carrying no horizontal-position and no attitude measurement:
only the depth channel may be present. -/
def rowDepthOnly (row : MeasurementRow) : Prop :=
  row.x_usbl = none ∧ row.y_usbl = none ∧ row.x_dvl = none ∧ row.y_dvl = none ∧
  row.roll_rad = none ∧ row.pitch_rad = none

instance (row : MeasurementRow) : Decidable (rowDepthOnly row) := by
  unfold rowDepthOnly; infer_instance

/-- The x- and y-variance entries of the covariance do not decrease from
one emitted state to the next. -/
def monoXY (a b : LoopState) : Prop :=
  a.kf.P 0 0 ≤ b.kf.P 0 0 ∧ a.kf.P 1 1 ≤ b.kf.P 1 1

instance (a b : LoopState) : Decidable (monoXY a b) := by
  unfold monoXY; infer_instance

lemma depthStep_kf (row : MeasurementRow) (st : LoopState) :
    (depthStep row st).kf = (match row.herc_depth with
      | some d => kfUpdate (eVec 2) d ((1/10)^2) st.kf
      | none => st.kf) := by
  cases hd : row.herc_depth <;> simp [depthStep, hd]

lemma processRow_depthOnly (st : LoopState) (row : MeasurementRow)
    (hrow : rowDepthOnly row) (h : CovInv st.kf.P) :
    CovInv (processRow st row).kf.P ∧ monoXY st (processRow st row) := by
  obtain ⟨hxu, hyu, hxd, hyd, hr, hp⟩ := hrow
  unfold processRow
  rw [pitchStep_noop _ _ hp, rollStep_noop _ _ hr, dvlStep_noop _ _ hxd,
      usblStep_noop _ _ hxu]
  have h1 := covInv_predict (dtOf st row) (dtOf_nonneg st row) st.kf h
  have hpred : (predictStep row st).kf = kfPredict (dtOf st row) st.kf := rfl
  unfold monoXY
  rw [wrapStep_P, depthStep_kf, hpred]
  cases hd : row.herc_depth with
  | none => exact ⟨h1.1, h1.2.1, h1.2.2⟩
  | some d =>
      have h2 := covInv_depthUpd d ((1/10)^2) (kfPredict (dtOf st row) st.kf) h1.1
      refine ⟨h2.1, ?_, ?_⟩
      · rw [h2.2.1]; exact h1.2.1
      · rw [h2.2.2]; exact h1.2.2

lemma runStates_cons (st : LoopState) (r : MeasurementRow) (rs : List MeasurementRow) :
    runStates st (r :: rs) = processRow st r :: runStates (processRow st r) rs := rfl

lemma runStates_length (st : LoopState) (rows : List MeasurementRow) :
    (runStates st rows).length = rows.length := by
  induction rows generalizing st with
  | nil => rfl
  | cons r rs ih => rw [runStates_cons, List.length_cons, List.length_cons, ih]

lemma runStates_chain (rows : List MeasurementRow) (st : LoopState)
    (hinv : CovInv st.kf.P) (hall : ∀ r ∈ rows, rowDepthOnly r) :
    List.Chain' monoXY (st :: runStates st rows) := by
  induction rows generalizing st with
  | nil => simp [runStates]
  | cons r rs ih =>
      rw [runStates_cons, List.chain'_cons]
      have hstep := processRow_depthOnly st r (hall r (by simp)) hinv
      exact ⟨hstep.2, ih (processRow st r) hstep.1
        (fun r2 h2 => hall r2 (by simp [h2]))⟩

/-! ### Helper lemmas for the heading smoother -/

lemma sum_getD_range (l : List ℝ) : (∑ j in Finset.range l.length, l.getD j 0) = l.sum := by
  induction l with
  | nil => simp
  | cons a t ih =>
      rw [List.length_cons, Finset.sum_range_succ']
      simp only [List.getD_cons_succ, List.getD_cons_zero, List.sum_cons, ih]
      ring

lemma getD_replicate_lt (n m : ℕ) (s : ℝ) (h : m < n) :
    (List.replicate n s).getD m 0 = s := by
  rw [List.getD_eq_getElem?_getD]
  simp [List.getElem?_replicate, h]

lemma clampIdx_lt (n : ℕ) (k : ℤ) (hn : 0 < n) : clampIdx n k < n := by
  unfold clampIdx
  split_ifs <;> omega

lemma conv_const (w : List ℝ) (r n : ℕ) (s : ℝ) (hw : w.sum = 1) :
    convNearest w r (List.replicate n s) = List.replicate n s := by
  unfold convNearest
  rw [List.length_replicate]
  have hmap : ∀ i ∈ List.range n,
      (∑ j in Finset.range w.length,
        w.getD j 0 * (List.replicate n s).getD
          (clampIdx n ((i : ℤ) + (j : ℤ) - (r : ℤ))) 0) = s := by
    intro i hi
    have hn : 0 < n := lt_of_le_of_lt (Nat.zero_le _) (List.mem_range.mp hi)
    have hterm : ∀ j ∈ Finset.range w.length,
        w.getD j 0 * (List.replicate n s).getD
          (clampIdx n ((i : ℤ) + (j : ℤ) - (r : ℤ))) 0 = w.getD j 0 * s := by
      intro j _
      rw [getD_replicate_lt n _ s (clampIdx_lt n _ hn)]
    rw [Finset.sum_congr rfl hterm, ← Finset.sum_mul, sum_getD_range, hw, one_mul]
  rw [List.map_congr_left hmap]
  simp

lemma arctan2_sin_cos_deg (c : ℝ) (h0 : 0 ≤ c) (h1 : c < 360) :
    rmod (arctan2 (Real.sin (c * Real.pi / 180))
      (Real.cos (c * Real.pi / 180)) * 180 / Real.pi) 360 = c := by
  have hpi := Real.pi_pos
  set θ := c * Real.pi / 180 with hth
  by_cases hc : c ≤ 180
  · have hθ0 : 0 ≤ θ := by
      rw [hth]; exact div_nonneg (mul_nonneg h0 hpi.le) (by norm_num)
    have hθπ : θ ≤ Real.pi := by
      rw [hth, div_le_iff₀ (by norm_num : (0:ℝ) < 180)]
      nlinarith
    have harg : arctan2 (Real.sin θ) (Real.cos θ) = θ := by
      unfold arctan2
      rw [Complex.ofReal_cos, Complex.ofReal_sin]
      exact Complex.arg_cos_add_sin_mul_I ⟨by linarith, hθπ⟩
    rw [harg]
    have hval : θ * 180 / Real.pi = c := by rw [hth]; field_simp
    rw [hval]
    unfold rmod
    have hf : (⌊c / 360⌋ : ℤ) = 0 := by
      rw [Int.floor_eq_zero_iff]
      constructor
      · exact div_nonneg h0 (by norm_num)
      · rw [div_lt_one (by norm_num : (0:ℝ) < 360)]; linarith
    rw [hf]
    push_cast
    ring
  · push_neg at hc
    have hπθ : Real.pi < θ := by
      rw [hth, lt_div_iff₀ (by norm_num : (0:ℝ) < 180)]
      nlinarith
    have hθ2π : θ < 2 * Real.pi := by
      rw [hth, div_lt_iff₀ (by norm_num : (0:ℝ) < 180)]
      nlinarith
    have harg : arctan2 (Real.sin θ) (Real.cos θ) = θ - 2 * Real.pi := by
      unfold arctan2
      rw [← Real.sin_sub_two_pi θ, ← Real.cos_sub_two_pi θ,
          Complex.ofReal_cos, Complex.ofReal_sin]
      exact Complex.arg_cos_add_sin_mul_I ⟨by linarith, by linarith⟩
    rw [harg]
    have hval : (θ - 2 * Real.pi) * 180 / Real.pi = c - 360 := by
      rw [hth]; field_simp; ring
    rw [hval]
    unfold rmod
    have hf : (⌊(c - 360) / 360⌋ : ℤ) = -1 := by
      rw [Int.floor_eq_iff]
      push_cast
      constructor
      · rw [le_div_iff₀ (by norm_num : (0:ℝ) < 360)]; linarith
      · rw [div_lt_iff₀ (by norm_num : (0:ℝ) < 360)]; linarith
    rw [hf]
    push_cast
    ring

lemma headingComponents_const (n : ℕ) (c : ℝ) (f : ℝ → ℝ) :
    headingComponents (List.replicate n (some c)) f
      = List.replicate n (f (c * Real.pi / 180)) := by
  unfold headingComponents
  rw [if_neg]
  · rw [List.map_replicate, List.map_replicate]
    rfl
  · simp

lemma replicate_some_not_all_none (n : ℕ) (c : ℝ) (hn : 0 < n) :
    ((List.replicate n (some c)).all fun o => o.isNone) = false := by
  cases n with
  | zero => omega
  | succ m => simp [List.replicate_succ]

/-! ### Claims -/

/-- Claim C10: after every timestep of the state estimator — prediction
plus all corrections applied at that timestep — the roll and pitch
components of the emitted state lie in `[-π, π)` (with `π` the float value
`piQ` the code uses). -/
theorem C10_roll_pitch_wrapped (st : LoopState) (row : MeasurementRow) :
    (processRow st row).kf.x 3 ∈ Set.Ico (-piQ) piQ ∧
    (processRow st row).kf.x 4 ∈ Set.Ico (-piQ) piQ := by
  have h3 : (processRow st row).kf.x 3 = wrapAngle ((pitchStep row (rollStep row
      (dvlStep row (usblStep row (depthStep row (predictStep row st)))))).kf.x 3) := rfl
  have h4 : (processRow st row).kf.x 4 = wrapAngle ((pitchStep row (rollStep row
      (dvlStep row (usblStep row (depthStep row (predictStep row st)))))).kf.x 4) := rfl
  rw [h3, h4]
  exact ⟨wrapAngle_mem _, wrapAngle_mem _⟩

/-- Claim C9: feeding the state estimator a measurement sequence that
carries only depth measurements (no acoustic, bottom-track or attitude
data) keeps the x- and y-position variance entries of the covariance
monotonically non-decreasing across the emitted timesteps. -/
theorem C9_depth_only_cov_monotone (rows : List MeasurementRow)
    (h : ∀ r ∈ rows, rowDepthOnly r) :
    List.Chain' monoXY (runStates (initLoopState rows) rows) :=
  (runStates_chain rows (initLoopState rows) covInv_initP h).tail

/-- Two depth-only rows used to witness C9. -/
def c9Rows : List MeasurementRow :=
  [{ timestamp := 0, herc_depth := some (-25), x_usbl := none, y_usbl := none,
     accuracy_usbl := none, x_dvl := none, y_dvl := none, roll_rad := none, pitch_rad := none },
   { timestamp := 2, herc_depth := some (-26), x_usbl := none, y_usbl := none,
     accuracy_usbl := none, x_dvl := none, y_dvl := none, roll_rad := none, pitch_rad := none }]

theorem C9_depth_only_cov_monotone_witness :
    List.Chain' monoXY (runStates (initLoopState c9Rows) c9Rows) :=
  C9_depth_only_cov_monotone c9Rows (by decide)

/-- Claim C8: the stream entering the state estimator is depth
pre-filtered — every surviving record has a measured depth of at most
−20 m, every record whose depth is shallower than −20 m (or missing) is
removed, and the estimator emits exactly one state per surviving record,
so no estimate is produced for a removed record. -/
theorem C8_depth_prefilter (rows : List MeasurementRow) (st : LoopState) :
    (runStates st (depthPrefilter rows)).length = (depthPrefilter rows).length ∧
    (∀ r ∈ depthPrefilter rows, ∃ d, r.herc_depth = some d ∧ d ≤ -20) ∧
    (∀ r ∈ rows, ∀ d, r.herc_depth = some d → -20 < d → r ∉ depthPrefilter rows) ∧
    (∀ r ∈ rows, r.herc_depth = none → r ∉ depthPrefilter rows) := by
  refine ⟨runStates_length st _, ?_, ?_, ?_⟩
  · intro r hr
    have hk : keepRow r = true := (List.mem_filter.mp hr).2
    unfold keepRow at hk
    cases hd : r.herc_depth with
    | none => rw [hd] at hk; exact absurd hk (by simp)
    | some d =>
        rw [hd] at hk
        exact ⟨d, rfl, of_decide_eq_true hk⟩
  · intro r _ d hd hgt hmem
    have hk : keepRow r = true := (List.mem_filter.mp hmem).2
    unfold keepRow at hk
    rw [hd] at hk
    have := of_decide_eq_true hk
    linarith
  · intro r _ hd hmem
    have hk : keepRow r = true := (List.mem_filter.mp hmem).2
    unfold keepRow at hk
    rw [hd] at hk
    exact absurd hk (by simp)

/-- A deep record (kept by the pre-filter) and a shallow record (removed),
used to witness C8. -/
def c8DeepRow : MeasurementRow :=
  { timestamp := 0, herc_depth := some (-45), x_usbl := none, y_usbl := none,
    accuracy_usbl := none, x_dvl := none, y_dvl := none, roll_rad := none, pitch_rad := none }

def c8ShallowRow : MeasurementRow :=
  { timestamp := 1, herc_depth := some (-5), x_usbl := none, y_usbl := none,
    accuracy_usbl := none, x_dvl := none, y_dvl := none, roll_rad := none, pitch_rad := none }

theorem C8_depth_prefilter_witness :
    (∃ d, c8DeepRow.herc_depth = some d ∧ d ≤ -20) ∧
    c8ShallowRow ∉ depthPrefilter [c8DeepRow, c8ShallowRow] :=
  ⟨(C8_depth_prefilter [c8DeepRow, c8ShallowRow] (initLoopState [])).2.1 c8DeepRow (by decide),
   (C8_depth_prefilter [c8DeepRow, c8ShallowRow] (initLoopState [])).2.2.1 c8ShallowRow
     (by decide) (-5) (by decide) (by norm_num)⟩

/-- Claim C7: in the steep-terrain avoidance of `process_rov_data`, a
trajectory point with terrain data is shifted exactly one raster cell
eastward (northing unchanged) when some in-bounds axis-aligned neighbor
exceeds the center elevation by more than 0.5 m, and keeps its raw
coordinates otherwise. -/
theorem C7_steep_terrain_shift (g : TerrainGrid) (t x y : ℚ) :
    ((∃ c ∈ neighborCoords g x y, inBounds g c ∧ t + 1/2 < g.sample c.1 c.2) →
        steepShift g (some t) x y = (x + g.resx, y)) ∧
    ((∀ c ∈ neighborCoords g x y, inBounds g c → g.sample c.1 c.2 ≤ t + 1/2) →
        steepShift g (some t) x y = (x, y)) := by
  constructor
  · rintro ⟨c, hc, hb, hlt⟩
    have hany : (((neighborCoords g x y).filter (fun c => decide (inBounds g c))).map
        (fun c => g.sample c.1 c.2)).any (fun a => decide (t + 1/2 < a)) = true := by
      rw [List.any_eq_true]
      exact ⟨g.sample c.1 c.2,
        List.mem_map_of_mem _ (List.mem_filter.mpr ⟨hc, decide_eq_true hb⟩),
        decide_eq_true hlt⟩
    simp only [steepShift, hany, if_true]
  · intro hall
    have hany : (((neighborCoords g x y).filter (fun c => decide (inBounds g c))).map
        (fun c => g.sample c.1 c.2)).any (fun a => decide (t + 1/2 < a)) = false := by
      rw [List.any_eq_false]
      intro a ha
      obtain ⟨c, hcf, rfl⟩ := List.mem_map.mp ha
      obtain ⟨hc, hbdec⟩ := List.mem_filter.mp hcf
      simp only [decide_eq_true_eq]
      exact not_lt.mpr (hall c hc (of_decide_eq_true hbdec))
    simp only [steepShift, hany]
    rfl

/-- A small terrain grid with a wall of elevation 5 along the column
`x = 3`, used to witness C7. -/
def c7Grid : TerrainGrid :=
  { left := 0, right := 10, bottom := 0, top := 10, resx := 1, resy := 1
    sample := fun a _ => if a = 3 then 5 else 0 }

theorem C7_steep_terrain_shift_witness :
    steepShift c7Grid (some 0) 2 2 = (2 + c7Grid.resx, 2) :=
  (C7_steep_terrain_shift c7Grid 0 2 2).1
    ⟨(3, 2), by norm_num [neighborCoords, c7Grid],
     by norm_num [inBounds, c7Grid], by norm_num [c7Grid]⟩

/-- Claim C1: the spec (and the code's own comments and printed summary)
require the depth leaving the terrain-safety stage to be at least the
center-pixel elevation plus 1 m whenever terrain data exists.  The code
violates this: the neighborhood adjustment raises the depth only to
`max_neighbor + 0.5` (its comment says "exactly 1m above") and the final
re-verification clamps only when `depth < elevation` (not
`elevation + 1`), so with elevation −55 everywhere and an incoming depth
of −54.7 m the emitted depth is −54.5 m = elevation + 0.5 m, half a meter
below the required elevation + 1 m = −54 m floor. -/
theorem C1_terrain_margin_violated :
    safeDepth (-55) (List.replicate 9 (-55)) (-547/10) = -109/2 ∧
      ¬ ((-55 : ℚ) + 1 ≤ -109/2) := by
  constructor
  · have hmax : maxQ (List.replicate 9 ((-55 : ℚ))) = -55 := by
      norm_num [List.replicate, maxQ]
    unfold safeDepth
    rw [hmax]
    norm_num
  · norm_num

/-- A loop state with fresh filter, no previous timestamp and empty
rolling buffers. -/
def st0 : LoopState :=
  { kf := { x := fun _ => 0, P := initP }, prevTime := none,
    recentX := [], recentY := [], updatesApplied := 0 }

/-- Claim C2 (amended): when a row carries a USBL fix `(x, y)`, the fix is
first pushed into both rolling buffers (evicting the oldest entry past
20); if the buffer including the new fix still has fewer than 2 entries
the two position updates run unconditionally, otherwise they run exactly
when the gate condition — `var_x > 0`, `var_y > 0`, `|x − mean_x| ≤
3·std_x` and `|y − mean_y| ≤ 3·std_y`, all computed over the buffer
including the new fix — holds; in particular a zero-variance buffer
rejects the fix. -/
lemma usblStep_spec (st : LoopState) (row : MeasurementRow) (x y : ℚ)
    (hx : row.x_usbl = some x) (hy : row.y_usbl = some y) :
    (usblStep row st).recentX = (pushBuffers st.recentX st.recentY x y).1 ∧
    (usblStep row st).recentY = (pushBuffers st.recentX st.recentY x y).2 ∧
    (usblStep row st).updatesApplied = st.updatesApplied +
      (if 2 ≤ (pushBuffers st.recentX st.recentY x y).1.length then
        (if usblGate (pushBuffers st.recentX st.recentY x y).1
            (pushBuffers st.recentX st.recentY x y).2 x y then 2 else 0)
       else 2) := by
  unfold usblStep
  rw [hx, hy]
  by_cases h1 : 2 ≤ (pushBuffers st.recentX st.recentY x y).1.length
  · by_cases h2 : usblGate (pushBuffers st.recentX st.recentY x y).1
        (pushBuffers st.recentX st.recentY x y).2 x y = true
    · simp [if_pos h1, if_pos h2]
    · simp [if_pos h1, if_neg h2]
  · simp [if_neg h1]

theorem C2_outlier_gate_amended (st : LoopState) (row : MeasurementRow) (x y : ℚ)
    (hx : row.x_usbl = some x) (hy : row.y_usbl = some y) :
    (usblStep row st).recentX = (pushBuffers st.recentX st.recentY x y).1 ∧
    (usblStep row st).recentY = (pushBuffers st.recentX st.recentY x y).2 ∧
    (usblStep row st).updatesApplied = st.updatesApplied +
      (if 2 ≤ (pushBuffers st.recentX st.recentY x y).1.length then
        (if usblGate (pushBuffers st.recentX st.recentY x y).1
            (pushBuffers st.recentX st.recentY x y).2 x y then 2 else 0)
       else 2) :=
  usblStep_spec st row x y hx hy

/-- A loop state whose rolling buffers hold the two fixes (0,3) and (0,3),
so the buffered x-values have zero variance. -/
def c2State : LoopState :=
  { kf := { x := fun _ => 0, P := initP }, prevTime := none,
    recentX := [0, 0], recentY := [3, 3], updatesApplied := 0 }

/-- A row carrying the USBL fix (0, 9) and nothing else. -/
def c2Row : MeasurementRow :=
  { timestamp := 0, herc_depth := none, x_usbl := some 0, y_usbl := some 9,
    accuracy_usbl := none, x_dvl := none, y_dvl := none, roll_rad := none, pitch_rad := none }

/-- Counterexample to claim C2 as stated: with a zero-variance buffered
x-channel the claim promises unconditional acceptance, but the code
rejects the fix (0, 9) — the gate is false and no measurement update is
applied. -/
theorem C2_outlier_gate_cex :
    varQ (pushBuffers c2State.recentX c2State.recentY 0 9).1 = 0 ∧
    usblGate (pushBuffers c2State.recentX c2State.recentY 0 9).1
      (pushBuffers c2State.recentX c2State.recentY 0 9).2 0 9 = false ∧
    (usblStep c2Row c2State).updatesApplied = 0 := by
  have hbufs : pushBuffers c2State.recentX c2State.recentY 0 9 = ([0, 0, 0], [3, 3, 9]) := by
    norm_num [pushBuffers, c2State]
  have hvar : varQ [(0:ℚ), 0, 0] = 0 := by norm_num [varQ, meanQ]
  have hg : usblGate [(0:ℚ), 0, 0] [(3:ℚ), 3, 9] 0 9 = false := by
    simp [usblGate, hvar]
  refine ⟨by rw [hbufs]; exact hvar, by rw [hbufs]; exact hg, ?_⟩
  have h := (usblStep_spec c2State c2Row 0 9 rfl rfl).2.2
  rw [h, hbufs]
  simp [hg, c2State]

/-- Witness for C2: the fix (0, 9) arriving at an empty buffer (cold
start: fewer than 2 buffered entries even after the push) is accepted
unconditionally and both updates run. -/
theorem C2_outlier_gate_amended_witness :
    (usblStep c2Row st0).recentX = (pushBuffers st0.recentX st0.recentY 0 9).1 ∧
    (usblStep c2Row st0).recentY = (pushBuffers st0.recentX st0.recentY 0 9).2 ∧
    (usblStep c2Row st0).updatesApplied = st0.updatesApplied +
      (if 2 ≤ (pushBuffers st0.recentX st0.recentY 0 9).1.length then
        (if usblGate (pushBuffers st0.recentX st0.recentY 0 9).1
            (pushBuffers st0.recentX st0.recentY 0 9).2 0 9 then 2 else 0)
       else 2) :=
  C2_outlier_gate_amended st0 c2Row 0 9 rfl rfl

/-- A row carrying a DVL bottom-track position (10, 10) and a measured
depth of −40 m, and nothing else. -/
def c3Row : MeasurementRow :=
  { timestamp := 0, herc_depth := some (-40), x_usbl := none, y_usbl := none,
    accuracy_usbl := none, x_dvl := some 10, y_dvl := some 10, roll_rad := none, pitch_rad := none }

/-- Counterexample to claim C3 as stated: at measured depth −40 m
(≤ −30 m, where the claim requires the DVL corrections to be applied) the
code skips the DVL block entirely — the guard `Herc_Depth_1 >= -30` is
false and the loop state passes through unchanged. -/
theorem C3_dvl_gate_cex :
    c3Row.herc_depth = some (-40) ∧ dvlDepthOK c3Row = false ∧
      dvlStep c3Row st0 = st0 := by
  have hok : dvlDepthOK c3Row = false := by
    unfold dvlDepthOK c3Row
    norm_num
  refine ⟨rfl, hok, ?_⟩
  unfold dvlStep
  rw [show c3Row.x_dvl = some 10 from rfl, show c3Row.y_dvl = some 10 from rfl]
  simp [hok]

/-- Claim C3 (amended): when a row carries a DVL position, the two scalar
DVL corrections are applied if and only if the row's measured depth
channel is present and at least −30 m (the code's guard is
`Herc_Depth_1 >= -30`, the reverse of the claimed direction, and it reads
the measured depth, not the filtered depth); otherwise the DVL position
is ignored and the state passes through unchanged. -/
theorem C3_dvl_gate_amended (st : LoopState) (row : MeasurementRow) (xd yd : ℚ)
    (hx : row.x_dvl = some xd) (hy : row.y_dvl = some yd) :
    (dvlDepthOK row = false → dvlStep row st = st) ∧
    (dvlDepthOK row = true → (dvlStep row st).updatesApplied = st.updatesApplied + 2) ∧
    (dvlDepthOK row = true ↔ ∃ d, row.herc_depth = some d ∧ -30 ≤ d) := by
  refine ⟨?_, ?_, ?_⟩
  · intro hok
    unfold dvlStep
    rw [hx, hy]
    simp [hok]
  · intro hok
    unfold dvlStep
    rw [hx, hy]
    simp [hok]
  · unfold dvlDepthOK
    cases hd : row.herc_depth <;> simp [hd]

/-- A row carrying a DVL position (10, 10) at measured depth −25 m. -/
def c3bRow : MeasurementRow :=
  { timestamp := 0, herc_depth := some (-25), x_usbl := none, y_usbl := none,
    accuracy_usbl := none, x_dvl := some 10, y_dvl := some 10, roll_rad := none, pitch_rad := none }

/-- Witness for C3: at measured depth −25 m ≥ −30 m the two DVL
corrections run. -/
theorem C3_dvl_gate_amended_witness :
    (dvlStep c3bRow st0).updatesApplied = st0.updatesApplied + 2 :=
  (C3_dvl_gate_amended st0 c3bRow 10 10 rfl rfl).2.1
    (by unfold dvlDepthOK c3bRow; norm_num)

/-- A loop state whose rolling buffers hold the two fixes (1,1) and (1,1). -/
def c4State : LoopState :=
  { kf := { x := fun _ => 0, P := initP }, prevTime := none,
    recentX := [1, 1], recentY := [1, 1], updatesApplied := 0 }

/-- A row carrying the USBL fix (1, 1) and nothing else. -/
def c4Row : MeasurementRow :=
  { timestamp := 0, herc_depth := none, x_usbl := some 1, y_usbl := some 1,
    accuracy_usbl := none, x_dvl := none, y_dvl := none, roll_rad := none, pitch_rad := none }

/-- Counterexample to claim C4 as stated: the fix (1, 1) is rejected by
the gate (zero variance), no measurement update is applied — yet the
rolling buffer does change: the rejected fix has been appended to it. -/
theorem C4_rejected_fix_cex :
    usblGate (pushBuffers c4State.recentX c4State.recentY 1 1).1
      (pushBuffers c4State.recentX c4State.recentY 1 1).2 1 1 = false ∧
    (usblStep c4Row c4State).updatesApplied = c4State.updatesApplied ∧
    (usblStep c4Row c4State).recentX ≠ c4State.recentX := by
  have hbufs : pushBuffers c4State.recentX c4State.recentY 1 1 = ([1, 1, 1], [1, 1, 1]) := by
    norm_num [pushBuffers, c4State]
  have hvar : varQ [(1:ℚ), 1, 1] = 0 := by norm_num [varQ, meanQ]
  have hg : usblGate [(1:ℚ), 1, 1] [(1:ℚ), 1, 1] 1 1 = false := by
    simp [usblGate, hvar]
  have hspec := usblStep_spec c4State c4Row 1 1 rfl rfl
  refine ⟨by rw [hbufs]; exact hg, ?_, ?_⟩
  · rw [hspec.2.2, hbufs]
    simp [hg]
  · rw [hspec.1, hbufs]
    simp [c4State]

/-- Claim C4 (amended): a USBL fix rejected by the outlier gate produces
no x or y measurement update and leaves the filter state and counter
unchanged, but it does enter the rolling buffers (possibly evicting the
oldest entry), contrary to the claim that the buffer is left unchanged. -/
theorem C4_rejected_fix_amended (st : LoopState) (row : MeasurementRow) (x y : ℚ)
    (hx : row.x_usbl = some x) (hy : row.y_usbl = some y)
    (hlen : 2 ≤ (pushBuffers st.recentX st.recentY x y).1.length)
    (hg : usblGate (pushBuffers st.recentX st.recentY x y).1
        (pushBuffers st.recentX st.recentY x y).2 x y = false) :
    usblStep row st = { st with recentX := (pushBuffers st.recentX st.recentY x y).1,
                                recentY := (pushBuffers st.recentX st.recentY x y).2 } := by
  unfold usblStep
  rw [hx, hy]
  simp [if_pos hlen, hg]

/-- Witness for C4: the rejected fix (1, 1) leaves the filter and counter
of `c4State` unchanged while both buffers become `[1, 1, 1]`. -/
theorem C4_rejected_fix_amended_witness :
    usblStep c4Row c4State = { c4State with
      recentX := (pushBuffers c4State.recentX c4State.recentY 1 1).1,
      recentY := (pushBuffers c4State.recentX c4State.recentY 1 1).2 } :=
  C4_rejected_fix_amended c4State c4Row 1 1 rfl rfl
    (by norm_num [pushBuffers, c4State])
    (by
      have hvar : varQ [(1:ℚ), 1, 1] = 0 := by norm_num [varQ, meanQ]
      have hbufs : pushBuffers c4State.recentX c4State.recentY 1 1 = ([1, 1, 1], [1, 1, 1]) := by
        norm_num [pushBuffers, c4State]
      rw [hbufs]
      simp [usblGate, hvar])

/-- Counterexample to claim C5 as stated: the depth-clamp indicator
column `below_surface` computed by the terrain stage is in the script's
drop list and absent from the saved output columns, so output trajectory
points carry no depth-clamp flag. -/
theorem C5_audit_flags_cex :
    "below_surface" ∈ offsetDropCols ∧ "below_surface" ∉ offsetOutputColumns := by
  constructor
  · decide
  · decide

/-- Claim C5 (amended): the terrain-offset stage computes the clamp
indicator `below_surface` internally but drops it (together with
`geotiff_value` and `depth_diff`) before saving, and creates no
steep-terrain-shift flag; the saved output columns are exactly the list
below, which contains no flag column, and the `process_rov_data` output
schema likewise contains none. -/
theorem C5_audit_flags_amended :
    offsetOutputColumns =
      ["Timestamp", "Vehicle", "Latitude", "Longitude", "Heading", "Pitch", "Roll",
       "Depth", "O2_Concentration", "O2_Saturation", "Temperature", "Conductivity",
       "Pressure", "Salinity", "Sound_Velocity", "event_value", "event_free_text",
       "event_option.channel", "event_option.milestone", "event_option.rating",
       "event_option.vehicle", "Capture_1", "Capture_2", "Capture_1_image_path",
       "Capture_2_image_path", "Offset_x", "Offset_y", "UTM_X", "UTM_Y"] ∧
    "below_surface" ∉ offsetOutputColumns ∧
    "below_surface" ∉ navOutputColumns := by
  refine ⟨by rfl, by decide, by decide⟩

/-- Counterexample to claim C6 as stated: on an all-missing heading
sequence `filter_heading` returns an all-`NaN` sequence, so not every
output element is a heading value in `[0, 360)`. -/
theorem C6_heading_smoother_cex :
    ∃ o ∈ filterHeading [(1:ℝ)] 0 [none], ∀ v : ℝ, o ≠ some v := by
  refine ⟨none, ?_, by simp⟩
  unfold filterHeading
  rw [if_pos (by simp)]
  simp

/-- Claim C6 (amended): the smoothed output always has the same length as
the input; provided at least one input heading is valid (non-missing),
every output element is a value in `[0, 360)`; and smoothing a constant
all-valid sequence whose value already lies in `[0, 360)` returns it
unchanged (for any smoothing window with total weight 1, as the Gaussian
window has).  An all-missing input instead produces all-missing output,
and a constant outside `[0, 360)` is returned reduced mod 360. -/
theorem C6_heading_smoother_amended (w : List ℝ) (r : ℕ) (hs : List (Option ℝ)) :
    (filterHeading w r hs).length = hs.length ∧
    ((∃ o ∈ hs, o.isSome = true) →
      ∀ o ∈ filterHeading w r hs, ∃ v, o = some v ∧ v ∈ Set.Ico (0 : ℝ) 360) ∧
    (∀ (n : ℕ) (c : ℝ), 0 < n → 0 ≤ c → c < 360 → w.sum = 1 →
      filterHeading w r (List.replicate n (some c)) = List.replicate n (some c)) := by
  refine ⟨?_, ?_, ?_⟩
  · unfold filterHeading
    split_ifs
    · rw [List.length_map]
    · rw [List.length_map, List.length_range]
  · rintro ⟨o, ho, hsome⟩ o2 ho2
    have hall : (hs.all fun o => o.isNone) = false := by
      cases hb : hs.all (fun o => o.isNone)
      · rfl
      · have := List.all_eq_true.mp hb o ho
        cases o
        · simp at hsome
        · simp at this
    unfold filterHeading at ho2
    rw [if_neg (by simp [hall])] at ho2
    obtain ⟨i, hi, rfl⟩ := List.mem_map.mp ho2
    exact ⟨_, rfl, rmod_mem _ 360 (by norm_num)⟩
  · intro n c hn hc0 hc1 hw
    have hall := replicate_some_not_all_none n c hn
    unfold filterHeading
    rw [if_neg (by simp [hall])]
    rw [headingComponents_const n c Real.sin, headingComponents_const n c Real.cos]
    rw [conv_const w r n _ hw, conv_const w r n _ hw, List.length_replicate]
    have hmapc : ∀ i ∈ List.range n,
        some (rmod (arctan2 ((List.replicate n (Real.sin (c * Real.pi / 180))).getD i 0)
          ((List.replicate n (Real.cos (c * Real.pi / 180))).getD i 0) * 180 / Real.pi) 360)
        = some c := by
      intro i hi
      have hilt := List.mem_range.mp hi
      rw [getD_replicate_lt n i _ hilt, getD_replicate_lt n i _ hilt,
          arctan2_sin_cos_deg c hc0 hc1]
    rw [List.map_congr_left hmapc]
    simp

/-- Witness for C6: a two-element sequence with one valid heading keeps
its length, and the constant sequence `[100°, 100°]` is returned
unchanged by a unit-weight window. -/
theorem C6_heading_smoother_amended_witness :
    (filterHeading [(1:ℝ)] 0 [some 90, none]).length = 2 ∧
    filterHeading [(1:ℝ)] 0 (List.replicate 2 (some 100)) = List.replicate 2 (some 100) :=
  ⟨(C6_heading_smoother_amended [(1:ℝ)] 0 [some 90, none]).1,
   (C6_heading_smoother_amended [(1:ℝ)] 0 [some 90, none]).2.2 2 100
     (by norm_num) (by norm_num) (by norm_num) (by simp)⟩
